import Mathlib

/-!
Verification development for the `fixed-fast` fixed-point arithmetic crate.

The crate's `FixedDecimal<P>` stores a signed 128-bit integer `raw`
interpreted as `raw / 10^P`.  We embed values by their raw integer
(`ℤ`), carrying the precision `P : ℕ` as an explicit argument.  Rust's
`i128` division `/` truncates toward zero, which is `Int.tdiv`; `%` with
a nonnegative dividend agrees with `%` on `ℕ`.  Raw integers are
modelled as unbounded integers; the `i128` range is modelled explicitly
where overflow matters to a claim: in the checked operations
(`checked_add`/`checked_sub`/`checked_mul`), and in the ln doubling
loop, whose repeated `i128` multiplication overflows on negative
input.  A Rust `panic!`
(including out-of-bounds indexing and division by zero where it can
actually occur) is modelled by an explicit `crash`/`none` outcome.
-/

set_option maxRecDepth 4000

namespace FixedFast

/-- Bounds of Rust's `i128` type. -/
def i128Min : ℤ := -(2 ^ 127)

/-- Upper bound of Rust's `i128` type. -/
def i128Max : ℤ := 2 ^ 127 - 1

/-- `raw` lies in the representable range of `i128`. -/
def inBoundsI128 (v : ℤ) : Prop := i128Min ≤ v ∧ v ≤ i128Max

instance (v : ℤ) : Decidable (inBoundsI128 v) := by
  unfold inBoundsI128; infer_instance

/-- `FixedDecimal::scale()`: `10^P`. -/
def scale (P : ℕ) : ℤ := 10 ^ P

/-- `scale_raw(raw, scale_index)` from `fixed_decimal.rs`: rescales a raw
constant literal by a power of ten (integer division truncates toward
zero, as in Rust). -/
def scaleRaw (raw : ℤ) (scaleIndex : ℤ) : ℤ :=
  if 0 < scaleIndex then raw * 10 ^ scaleIndex.toNat
  else if scaleIndex < 0 then raw.tdiv (10 ^ (-scaleIndex).toNat)
  else raw

/-- `FixedDecimal::one()` raw value. -/
def one (P : ℕ) : ℤ := scale P

/-- `FixedDecimal::ln2()` raw value: the 30-decimal literal rescaled to `P`. -/
def ln2 (P : ℕ) : ℤ := scaleRaw 693147180559945309417232121458 ((P : ℤ) - 30)

/-- `FixedDecimal::from_i128`. -/
def fromI128 (P : ℕ) (x : ℤ) : ℤ := x * scale P

/-- `FixedDecimal::to_i128` / `to_integer`: `raw / scale`, truncating. -/
def toI128 (P : ℕ) (a : ℤ) : ℤ := a.tdiv (scale P)

/-- `FixedDecimal::floor_i128`: `raw / scale` in Rust (truncated division). -/
def floorI128 (P : ℕ) (a : ℤ) : ℤ := a.tdiv (scale P)

/-- Fixed-point addition: raw addition, no rescale. -/
def fdAdd (a b : ℤ) : ℤ := a + b

/-- Fixed-point subtraction: raw subtraction, no rescale. -/
def fdSub (a b : ℤ) : ℤ := a - b

/-- Fixed-point multiplication: `(a*b) / scale`, truncating. -/
def fdMul (P : ℕ) (a b : ℤ) : ℤ := (a * b).tdiv (scale P)

/-- Fixed-point division: `a * scale / b`, truncating.  (Rust panics when
`b = 0`; `Int.tdiv` then returns `0` — the zero-divisor cases that can
actually be reached are modelled explicitly at their call sites.) -/
def fdDiv (P : ℕ) (a b : ℤ) : ℤ := (a * scale P).tdiv b

/-- `mul_i128`: raw value times a plain integer. -/
def fdMulI (a k : ℤ) : ℤ := a * k

/-- `div_i128`: raw value divided (truncating) by a plain integer. -/
def fdDivI (a k : ℤ) : ℤ := a.tdiv k

/-- `FixedDecimal::two_pow_k`: `one << k` for positive `k`, `one >> -k`
for negative `k` (`<<`/`>>` act on the raw integer; `>>` is an
arithmetic shift, i.e. floor division by a power of two; the raw one is
nonnegative so floor and truncation agree). -/
def two_pow_k (P : ℕ) (k : ℤ) : ℤ :=
  if 0 < k then one P * 2 ^ k.toNat
  else if k < 0 then (one P) / 2 ^ (-k).toNat
  else one P

/-- The crate's error enum `FixedFastError`. -/
inductive FixedFastError : Type where
  | OutOfRange (v : ℕ)
  | DomainError (msg : String)
  | DivideByZero
  | Overflow
deriving DecidableEq, Repr

/-- Outcome of a Rust call in the embedding: a returned value, a returned
typed error (`Err`), or an aborted execution (`panic!`, index out of
bounds, division by zero). -/
inductive Outcome (α : Type) : Type where
  | value (v : α)
  | error (e : FixedFastError)
  | crash
deriving DecidableEq, Repr

/-- `Result::map` on the value, propagating errors and panics. -/
def Outcome.map {α β : Type} (f : α → β) : Outcome α → Outcome β
  | .value v => .value (f v)
  | .error e => .error e
  | .crash => .crash

/-- `checked_add` from `fixed_decimal.rs`: `i128::checked_add` on the raws. -/
def checked_add (a b : ℤ) : Except FixedFastError ℤ :=
  if inBoundsI128 (a + b) then .ok (a + b) else .error .Overflow

/-- `checked_sub` from `fixed_decimal.rs`: `i128::checked_sub` on the raws. -/
def checked_sub (a b : ℤ) : Except FixedFastError ℤ :=
  if inBoundsI128 (a - b) then .ok (a - b) else .error .Overflow

/-- `checked_mul` from `fixed_decimal.rs`: `i128::checked_mul` on the raw
product, then division by the scale. -/
def checked_mul (P : ℕ) (a b : ℤ) : Except FixedFastError ℤ :=
  if inBoundsI128 (a * b) then .ok ((a * b).tdiv (scale P)) else .error .Overflow

end FixedFast

namespace FixedFast

/-! ### Textual encoding: `to_string` and `from_str` -/

/-- Numeric value of a digit string (used by the embedding of Rust's
`i128::from_str`). -/
def digitsToNat (cs : List Char) : ℕ :=
  cs.foldl (fun acc c => acc * 10 + (c.toNat - 48)) 0

/-- Rust `str::parse::<i128>`: an optional sign, then one or more digits,
rejecting the empty body, non-digit characters, and out-of-range values. -/
def parseI128 (cs : List Char) : Except String ℤ :=
  let sgnBody : ℤ × List Char :=
    match cs with
    | '+' :: t => (1, t)
    | '-' :: t => (-1, t)
    | t => (1, t)
  let sgn := sgnBody.1
  let body := sgnBody.2
  if body.isEmpty then .error "cannot parse integer from empty string"
  else if body.all (fun c => c.isDigit) then
    let v : ℤ := sgn * (digitsToNat body : ℤ)
    if inBoundsI128 v then .ok v else .error "number too large"
  else .error "invalid digit found in string"

/-- `FixedDecimal::to_string` (characters): fractional digits are
`|raw| % scale` left-padded with zeros to width `P` and stripped of
trailing zeros; the integer part is `raw / scale` (truncated toward
zero) rendered in Rust's `{}` format. -/
def toStringFD (P : ℕ) (raw : ℤ) : List Char :=
  let decimal : ℕ := raw.natAbs % 10 ^ P
  let ds := (Nat.repr decimal).data
  let decimalString := List.replicate (P - ds.length) '0' ++ ds
  let decimalStr := (decimalString.reverse.dropWhile (fun c => c == '0')).reverse
  let intChars := (Int.repr (raw.tdiv (scale P))).data
  if decimalStr.isEmpty then intChars else intChars ++ '.' :: decimalStr

/-- `FixedDecimal::from_str`: optional leading `-`, integer part, optional
`.`-separated fractional part truncated to `P` digits. -/
def fromStr (P : ℕ) (x : List Char) : Except String ℤ :=
  let isNegative := x.head? = some '-'
  let x := if isNegative then x.tail else x
  let integerPart := x.takeWhile (fun c => !(c == '.'))
  let rest := x.dropWhile (fun c => !(c == '.'))
  let decimalPart :=
    match rest with
    | [] => ['0']
    | _ :: t => t.takeWhile (fun c => !(c == '.'))
  let decimalPart :=
    if P < decimalPart.length then decimalPart.take P else decimalPart
  match parseI128 integerPart with
  | .error _ => .error "Invalid integer part"
  | .ok n =>
    let result := fromI128 P n
    let sc : ℤ := (P : ℤ) - (decimalPart.length : ℤ)
    match parseI128 decimalPart with
    | .error _ => .error "Invalid decimal part"
    | .ok d =>
      let decimalValue :=
        if 0 < sc then d * 10 ^ sc.toNat
        else if sc < 0 then d.tdiv (10 ^ (-sc).toNat)
        else d
      let raw := result + decimalValue
      .ok (if isNegative then -raw else raw)

instance {e a : Type} [DecidableEq e] [DecidableEq a] : DecidableEq (Except e a) :=
  fun x y =>
  match x, y with
  | .ok u, .ok v =>
    if h : u = v then .isTrue (by rw [h])
    else .isFalse (by intro hc; cases hc; exact h rfl)
  | .error u, .error v =>
    if h : u = v then .isTrue (by rw [h])
    else .isFalse (by intro hc; cases hc; exact h rfl)
  | .ok _, .error _ => .isFalse (by intro hc; cases hc)
  | .error _, .ok _ => .isFalse (by intro hc; cases hc)

end FixedFast

namespace FixedFast

/-- C1: the spec's round-trip property fails on the code: at precision 1,
the representable value `-0.5` (raw `-5`) renders as `"0.5"` because
`to_string` prints the truncated integer part `0` without a sign, and the
rendered string parses back to `+0.5` (raw `5`), not the original value. -/
theorem c1_roundtrip_fails_at_neg_half :
    toStringFD 1 (-5) = "0.5".data ∧
    fromStr 1 (toStringFD 1 (-5)) = Except.ok 5 ∧ (5 : ℤ) ≠ -5 := by
  refine ⟨by decide, by decide, by decide⟩

end FixedFast

namespace FixedFast

/-! ### Exp: `range_reduce_taylor_exp` from `exp.rs` -/

/-- The integer `k` of the exponential's range reduction:
`(x / ln2).floor_i128()`, where `/` is fixed-point (truncating) division
and `floor_i128` is a further truncating division by the scale. -/
def expK (P : ℕ) (x : ℤ) : ℤ := floorI128 P (fdDiv P x (ln2 P))

/-- The remainder `r` of the exponential's range reduction:
`x - ln2 * FixedDecimal::from_i128(k)`. -/
def expR (P : ℕ) (x : ℤ) : ℤ := fdSub x (fdMul P (ln2 P) (fromI128 P (expK P x)))

/-- The iterative Taylor loop of `range_reduce_taylor_exp`: returns
`(term, result)` after the first `n` iterations of
`term = term * r / i; result += term` starting from `term = result = 1`. -/
def expTaylor (P : ℕ) (r : ℤ) : ℕ → ℤ × ℤ
  | 0 => (fromI128 P 1, fromI128 P 1)
  | n + 1 =>
    let tr := expTaylor P r n
    let term := fdDivI (fdMul P tr.1 r) ((n : ℤ) + 1)
    (term, fdAdd tr.2 term)

/-- `range_reduce_taylor_exp`: Taylor sum of `e^r` multiplied by `2^k`
via the shift-based `two_pow_k` (the Rust code casts `k` from `i128` to
`i32` before the shift; the cast is the identity for every `k` the
reduction can produce on inputs of sane magnitude, and it is modelled as
the identity here). -/
def range_reduce_taylor_exp (P order : ℕ) (x : ℤ) : ℤ :=
  fdMul P (expTaylor P (expR P x) order).2 (two_pow_k P (expK P x))

/-! ### Sqrt: `sqrt_newton_raphson` and `sqrt_newton_raphson_try` from `sqrt.rs` -/

/-- The Newton iteration `y = (y + x/y) / 2`, run a fixed number of
times.  Rust's fixed-point division `x.div(y)` panics when `y`'s raw is
zero, which this embedding surfaces as `none`. -/
def sqrtNewtonLoop (P : ℕ) (x : ℤ) : ℕ → ℤ → Option ℤ
  | 0, y => some y
  | n + 1, y =>
    if y = 0 then none
    else sqrtNewtonLoop P x n (fdDivI (fdAdd y (fdDiv P x y)) 2)

/-- `sqrt_newton_raphson` (the unchecked path): `0 ↦ 0`, otherwise seed
`y = x/2` and iterate; there is no domain check for negative input.
`none` models a division-by-zero panic inside the loop. -/
def sqrt_newton_raphson (P d : ℕ) (x : ℤ) : Option ℤ :=
  if x = 0 then some (fromI128 P 0) else sqrtNewtonLoop P x d (fdDivI x 2)

/-- `sqrt_newton_raphson_try` (the fallible path): negative input is a
typed domain error, `0 ↦ 0`, otherwise the same iteration. -/
def sqrt_newton_raphson_try (P d : ℕ) (x : ℤ) : Outcome ℤ :=
  if x < 0 then .error (.DomainError "sqrt is undefined for negative numbers")
  else if x = 0 then .value 0
  else
    match sqrtNewtonLoop P x d (fdDivI x 2) with
    | some y => .value y
    | none => .crash

/-! ### Ln: `range_reduce_arctanh_ln` from `ln.rs` -/

/-- The halving loop `while input > 2 { input /= 2; shift += 1 }`.
It terminates for every integer input (the guard forces the raw value
to be positive and strictly decreasing). -/
def lnHalve (P : ℕ) (raw : ℤ) (shift : ℤ) : ℤ × ℤ :=
  if h : 2 * scale P < raw then lnHalve P (raw.tdiv 2) (shift + 1) else (raw, shift)
termination_by raw.toNat
decreasing_by
  have hs : (0 : ℤ) < scale P := by unfold scale; positivity
  have ht : raw.tdiv 2 = raw / 2 := Int.tdiv_eq_ediv (by omega) (by norm_num)
  have hlt : raw / 2 < raw := (Int.ediv_lt_iff_lt_mul (by norm_num)).2 (by omega)
  have hnn : (0 : ℤ) ≤ raw / 2 := Int.ediv_nonneg (by omega) (by norm_num)
  simp only [ht]
  omega

/-- Result of the doubling loop: either the loop condition became false
(`exited` with the final raw and shift count), or the `i128`
multiplication `input *= 2` left the representable range (`overflow`). -/
inductive DoublingExit : Type where
  | exited (raw shift : ℤ)
  | overflow
deriving DecidableEq, Repr

/-- The doubling loop `while input < 1 { input *= 2; shift -= 1 }`.
`input *= 2` is an `i128` multiplication: when the doubled value leaves
the `i128` range the operation is an arithmetic-overflow abort under
Rust's checked-overflow semantics (`overflow` — debug builds panic
there; a release build would instead wrap, making the loop exit with a
garbage positive value for most negative inputs, or spin on the wrapped
zero when the raw magnitude is a power of two).  The fuel only bounds
the recursion; `none` (fuel exhausted) is unreachable for `fuel ≥ 128`
on entry values in the `i128` range, since every pass doubles the
magnitude. -/
def lnDouble (P : ℕ) : ℕ → ℤ → ℤ → Option DoublingExit
  | 0, raw, shift => if raw < scale P then none else some (.exited raw shift)
  | fuel + 1, raw, shift =>
    if raw < scale P then
      if inBoundsI128 (fdMulI raw 2) then lnDouble P fuel (fdMulI raw 2) (shift - 1)
      else some .overflow
    else some (.exited raw shift)

/-- The arctanh series loop: returns `(nth_term, running_sum)` after `n`
iterations of `nth_term = nth_term * t² / (2n+1); running_sum += nth_term`,
both initialised to the first term `t`. -/
def arctanhSeries (P : ℕ) (t tsq : ℤ) : ℕ → ℤ × ℤ
  | 0 => (t, t)
  | n + 1 =>
    let pr := arctanhSeries P t tsq n
    let nth := fdDivI (fdMul P pr.1 tsq) (2 * ((n : ℤ) + 1) + 1)
    (nth, fdAdd pr.2 nth)

/-- `range_reduce_arctanh_ln` (the only — unchecked — ln path in the
crate): panics on `0` (`some crash`); halves while `> 2`, doubles while
`< 1` (an `i128` overflow of the doubling is an abort, also `crash`);
then `2·arctanh((x-1)/(x+1)) + shift·ln2`.  The Rust loop
`for n in 1..APPROX_DEPTH` runs `APPROX_DEPTH - 1` times. -/
def range_reduce_arctanh_ln (P d fuel : ℕ) (input : ℤ) : Option (Outcome ℤ) :=
  if input = 0 then some .crash
  else
    let hs := lnHalve P input 0
    match lnDouble P fuel hs.1 hs.2 with
    | none => none
    | some .overflow => some .crash
    | some (.exited b sh) =>
      let arctanTerm := fdDiv P (fdSub b (one P)) (fdAdd b (one P))
      let arctanTermSquared := fdMul P arctanTerm arctanTerm
      let runningSum := (arctanhSeries P arctanTerm arctanTermSquared (d - 1)).2
      let shift := fdMulI (ln2 P) sh
      some (.value (fdAdd (fdMulI runningSum 2) shift))

/-- Modelled from the spec: the crate has no fallible ln implementation
under `src/` (only the `TryFunction` trait declaration and the panicking
direct `range_reduce_arctanh_ln` exist).  Per §4.3 "`ln(x)` requires
`x > 0`; `x = 0` or negative is a domain error" and §7 "the fallible API
surface always returns the typed error to the caller", non-positive
input yields a domain error and positive input performs the same §4.3
computation as the direct path. -/
def try_ln (P d fuel : ℕ) (x : ℤ) : Outcome ℤ :=
  if x ≤ 0 then .error (.DomainError "ln is undefined for non-positive input")
  else
    match range_reduce_arctanh_ln P d fuel x with
    | some o => o
    | none => .crash

end FixedFast

namespace FixedFast

/-! ### LookupTable, interpolation, and the table-backed functions -/

/-- `LookupTable` from `lookup_table.rs`.  The `end` bound is named
`stop` here because `end` is a Lean keyword. -/
structure LookupTable : Type where
  table : List ℤ
  start : ℤ
  stop : ℤ
  step_size : ℤ
deriving DecidableEq, Repr

/-- `LookupTable::new`: `table_size = ((end - start) / step).to_integer()`
(truncating fixed-point division, then truncation to an integer, then a
cast to `usize`, modelled by `Int.toNat`), and sample `i` is
`f(start + step_size * i)`. -/
def LookupTable.new (P : ℕ) (start stop step_size : ℤ) (f : ℤ → ℤ) : LookupTable :=
  let tableSize : ℕ := (toI128 P (fdDiv P (fdSub stop start) step_size)).toNat
  { table := (List.range tableSize).map (fun i : ℕ => f (fdAdd start (fdMulI step_size (i : ℤ))))
    start := start
    stop := stop
    step_size := step_size }

/-- `LookupTable::get_index`: rejects `x < start || x > end` with
`OutOfRange(x.to_integer() as usize)` (the `as usize` cast keeps the low
64 bits), otherwise the bucket `((x - start) / step).to_integer() as usize`. -/
def LookupTable.get_index (P : ℕ) (t : LookupTable) (x : ℤ) : Except FixedFastError ℕ :=
  if x < t.start ∨ t.stop < x then
    .error (.OutOfRange ((toI128 P x).emod (2 ^ 64)).toNat)
  else .ok (toI128 P (fdDiv P (fdSub x t.start) t.step_size)).toNat

/-- `linear_interpolation` from `interpolation.rs`:
`y1 + ((x - x1)/(x2 - x1)) * (y2 - y1)` in fixed-point arithmetic. -/
def linear_interpolation (P : ℕ) (x x1 x2 y1 y2 : ℤ) : ℤ :=
  fdAdd y1 (fdMul P (fdDiv P (fdSub x x1) (fdSub x2 x1)) (fdSub y2 y1))

/-- The shared lookup body duplicated in `sqrt.rs` and `cdf.rs`: clamp to
`table[index]` when `index + 1 >= table.len()` (an out-of-bounds
`table[index]` is a panic), otherwise interpolate between the two
bracketing samples. -/
def tableLookupBody (P : ℕ) (t : LookupTable) (x : ℤ) (index : ℕ) : Outcome ℤ :=
  if t.table.length ≤ index + 1 then
    match t.table.get? index with
    | some v => .value v
    | none => .crash
  else
    match t.table.get? index, t.table.get? (index + 1) with
    | some y1, some y2 =>
      let lowerValue := fdAdd (fdMulI t.step_size (index : ℤ)) t.start
      .value (linear_interpolation P x lowerValue (fdAdd lowerValue t.step_size) y1 y2)
    | _, _ => .crash

/-- `SqrtLinearInterpLookupTable::new`: samples `sqrt_newton_raphson`
over the grid; a panic while sampling (division by zero inside Newton's
iteration) aborts construction (`none`). -/
def SqrtLinearInterpLookupTable.new (P d : ℕ) (start stop step_size : ℤ) :
    Option LookupTable :=
  let tableSize : ℕ := (toI128 P (fdDiv P (fdSub stop start) step_size)).toNat
  match (List.range tableSize).mapM
      (fun i : ℕ => sqrt_newton_raphson P d (fdAdd start (fdMulI step_size (i : ℤ)))) with
  | some tbl => some { table := tbl, start := start, stop := stop, step_size := step_size }
  | none => none

/-- `TryFunction for SqrtLinearInterpLookupTable`: forwards `get_index`
errors with `?`, then the shared lookup body. -/
def SqrtLinearInterpLookupTable.try_evaluate (P : ℕ) (t : LookupTable) (x : ℤ) :
    Outcome ℤ :=
  match t.get_index P x with
  | .error e => .error e
  | .ok index => tableLookupBody P t x index

/-- `Function for SqrtLinearInterpLookupTable`: `.expect("Index not found")`
panics where the fallible path would return the error; otherwise identical. -/
def SqrtLinearInterpLookupTable.evaluate (P : ℕ) (t : LookupTable) (x : ℤ) :
    Outcome ℤ :=
  match t.get_index P x with
  | .error _ => .crash
  | .ok index => tableLookupBody P t x index

end FixedFast

namespace FixedFast

/-! ### CDF: `CDFCustomAprox` and `CDFLinearInterpLookupTable` from `cdf.rs` -/

/-- The 13 coefficient literals of `CDFCustomAprox::new`. -/
def cdfCoefficientStrings : List String :=
  ["-0.00000000436953479", "1.59576962000000000", "-0.00000955404601",
   "0.07274169990000000", "-0.00026565023900000", "0.00050857094000000",
   "-0.00079653385500000", "0.00059778488700000", "-0.00040077230600000",
   "0.00014965658000000", "-0.00002988796070000", "0.00000306494352000",
   "-0.00000012783404900"]

/-- `CDFCustomAprox::new`: each literal is parsed with
`FixedDecimal::from_str(..).unwrap()`.  Parsing succeeds for every
`P ≥ 1` (at `P = 0` the truncated fractional part is empty and the Rust
constructor would panic); the `.unwrap()` default here is never taken in
the precisions the theorems quantify over. -/
def cdfCoefficients (P : ℕ) : List ℤ :=
  cdfCoefficientStrings.map (fun s =>
    match fromStr P s.data with
    | .ok v => v
    | .error _ => 0)

/-- `FixedDecimal::polynomial`: `result = c₀; xⁿ = x;` then for each
further coefficient `result += c * xⁿ; xⁿ *= x`.  (The Rust code indexes
`coefficients[0]` and would panic on an empty slice; it is only called
with the 13-entry coefficient array.) -/
def polynomial (P : ℕ) (x : ℤ) : List ℤ → ℤ
  | [] => 0
  | c0 :: rest =>
    (rest.foldl (fun acc c => (fdAdd acc.1 (fdMul P c acc.2), fdMul P acc.2 x)) (c0, x)).1

/-- The non-negative branch of `topher_cdf`:
`1 / (1 + exp(-polynomial(x)))` with the order-30 Taylor exponential.
`none` models the division-by-zero panic if the denominator were zero. -/
def topherPos (P : ℕ) (x : ℤ) : Option ℤ :=
  let f := polynomial P x (cdfCoefficients P)
  let denominatorExponent := range_reduce_taylor_exp P 30 (-f)
  let den := fdAdd (one P) denominatorExponent
  if den = 0 then none else some (fdDiv P (one P) den)

/-- `topher_cdf`: reflects negative input through
`1 - topher_cdf(-x)` (the recursive call lands in the non-negative
branch), otherwise the logistic form. -/
def topher_cdf (P : ℕ) (x : ℤ) : Option ℤ :=
  if x < 0 then (topherPos P (-x)).map (fun v => fdSub (one P) v)
  else topherPos P x

/-- `Function for CDFCustomAprox`: clamp to `0` below `-6` and to `1`
above `6` (the literals `from_str("-6")`/`from_str("6")` parse to
`∓6·10^P` for every `P ≥ 1`), otherwise `topher_cdf`. -/
def CDFCustomAprox.evaluate (P : ℕ) (x : ℤ) : Outcome ℤ :=
  if x < -(6 * scale P) then .value 0
  else if 6 * scale P < x then .value (one P)
  else
    match topher_cdf P x with
    | some v => .value v
    | none => .crash

/-- `TryFunction for CDFCustomAprox`: `Ok(self.evaluate(x))` — literally
the direct evaluation (a panic inside `evaluate` remains a panic). -/
def CDFCustomAprox.try_evaluate (P : ℕ) (x : ℤ) : Outcome ℤ :=
  CDFCustomAprox.evaluate P x

/-- The non-negative branch of `TryFunction for CDFLinearInterpLookupTable`:
saturate to `1` at and above `end`, forward `get_index` errors, then the
shared lookup body. -/
def CDFLinearInterpLookupTable.tryNonneg (P : ℕ) (t : LookupTable) (x : ℤ) :
    Outcome ℤ :=
  if t.stop ≤ x then .value (one P)
  else
    match t.get_index P x with
    | .error e => .error e
    | .ok index => tableLookupBody P t x index

/-- `TryFunction for CDFLinearInterpLookupTable`: negative input reflects
through `self.try_evaluate(-x).map(|v| one - v)`. -/
def CDFLinearInterpLookupTable.try_evaluate (P : ℕ) (t : LookupTable) (x : ℤ) :
    Outcome ℤ :=
  if x < 0 then
    (CDFLinearInterpLookupTable.tryNonneg P t (-x)).map (fun v => fdSub (one P) v)
  else CDFLinearInterpLookupTable.tryNonneg P t x

/-- The non-negative branch of `Function for CDFLinearInterpLookupTable`:
as the fallible branch but `.expect(..)` panics on a `get_index` error. -/
def CDFLinearInterpLookupTable.evalNonneg (P : ℕ) (t : LookupTable) (x : ℤ) :
    Outcome ℤ :=
  if t.stop ≤ x then .value (one P)
  else
    match t.get_index P x with
    | .error _ => .crash
    | .ok index => tableLookupBody P t x index

/-- `Function for CDFLinearInterpLookupTable`: negative input reflects
through `one - self.evaluate(-x)`. -/
def CDFLinearInterpLookupTable.evaluate (P : ℕ) (t : LookupTable) (x : ℤ) :
    Outcome ℤ :=
  if x < 0 then
    (CDFLinearInterpLookupTable.evalNonneg P t (-x)).map (fun v => fdSub (one P) v)
  else CDFLinearInterpLookupTable.evalNonneg P t x

end FixedFast

namespace FixedFast

/-! ### Helper lemmas -/

theorem scale_pos (P : ℕ) : 0 < scale P := by
  unfold scale; positivity

theorem ediv_ediv_of_nonneg {a b c : ℤ} (ha : 0 ≤ a) (hb : 0 < b) (hc : 0 < c) :
    a / b / c = a / (b * c) := by
  lift a to ℕ using ha
  lift b to ℕ using hb.le
  lift c to ℕ using hc.le
  have h := Nat.div_div_eq_div_mul a b c
  exact_mod_cast congrArg (fun n : ℕ => (n : ℤ)) h

theorem ln2_pos {P : ℕ} (hP : 1 ≤ P) : 0 < ln2 P := by
  unfold ln2 scaleRaw
  split_ifs with h1 h2
  · positivity
  · have hD : (0 : ℤ) < 10 ^ (-((P : ℤ) - 30)).toNat := by positivity
    rw [Int.tdiv_eq_ediv (by norm_num) hD.le]
    have h29 : (-((P : ℤ) - 30)).toNat ≤ 29 := by omega
    have hle : (10 : ℤ) ^ (-((P : ℤ) - 30)).toNat ≤ 10 ^ 29 :=
      pow_le_pow_right₀ (by norm_num) h29
    have : (1 : ℤ) ≤ 693147180559945309417232121458 / 10 ^ (-((P : ℤ) - 30)).toNat := by
      rw [Int.le_ediv_iff_mul_le hD]
      calc (1 : ℤ) * 10 ^ (-((P : ℤ) - 30)).toNat
          = 10 ^ (-((P : ℤ) - 30)).toNat := one_mul _
        _ ≤ 10 ^ 29 := hle
        _ ≤ 693147180559945309417232121458 := by norm_num
    omega
  · norm_num

theorem fdMul_ln2_fromI128 (P : ℕ) (k : ℤ) :
    fdMul P (ln2 P) (fromI128 P k) = ln2 P * k := by
  unfold fdMul fromI128
  have hS : scale P ≠ 0 := (scale_pos P).ne'
  rw [show ln2 P * (k * scale P) = ln2 P * k * scale P by ring, Int.mul_tdiv_cancel _ hS]

end FixedFast

namespace FixedFast

/-! ### C2: the exponential's range reduction -/

/-- C2 (amended): for every nonnegative input `x` at precision `P ≥ 1`,
the computed `k = (x / ln2).floor_i128()` equals `⌊x / ln2⌋` and the
remainder `r = x - k·ln2` satisfies `0 ≤ r < ln2`.  (For negative `x`
the truncating divisions round toward zero instead of down, the claim
fails, and `r` lands in `(-ln2, 0]`; see the counterexample.) -/
theorem c2_exp_range_reduction_nonneg (P : ℕ) (x : ℤ) (hP : 1 ≤ P) (hx : 0 ≤ x) :
    expK P x = x / ln2 P ∧ 0 ≤ expR P x ∧ expR P x < ln2 P := by
  have hS : 0 < scale P := scale_pos P
  have hL : 0 < ln2 P := ln2_pos hP
  have hxS : 0 ≤ x * scale P := mul_nonneg hx hS.le
  have hk : expK P x = x / ln2 P := by
    unfold expK floorI128 fdDiv
    rw [Int.tdiv_eq_ediv hxS hL.le,
      Int.tdiv_eq_ediv (Int.ediv_nonneg hxS hL.le) hS.le,
      ediv_ediv_of_nonneg hxS hL hS,
      show ln2 P * scale P = ln2 P * scale P from rfl]
    rw [show x * scale P / (ln2 P * scale P) = x / ln2 P from
      Int.mul_ediv_mul_of_pos_left x (ln2 P) hS]
  refine ⟨hk, ?_, ?_⟩
  · unfold expR fdSub
    rw [fdMul_ln2_fromI128, hk, ← Int.emod_def]
    exact Int.emod_nonneg x hL.ne'
  · unfold expR fdSub
    rw [fdMul_ln2_fromI128, hk, ← Int.emod_def]
    exact Int.emod_lt_of_pos x hL

/-- C2 counterexample: at precision 1 and input `-1.0` (raw `-10`), the
code computes `k = -1` while `⌊x / ln2⌋ = -2`, and the remainder is
`-0.4` (raw `-4`), which is negative — the claim's "for every input x
(positive or negative)" fails. -/
theorem c2_counterexample_negative_input :
    expK 1 (-10) = -1 ∧ (-10 : ℤ) / ln2 1 = -2 ∧
    expK 1 (-10) ≠ (-10 : ℤ) / ln2 1 ∧ expR 1 (-10) = -4 ∧ ¬ (0 ≤ expR 1 (-10)) := by
  refine ⟨by decide, by decide, by decide, by decide, by decide⟩

/-- C2 witness: the amended theorem applied at `P = 1`, `x = 1.3` (raw 13). -/
theorem c2_exp_range_reduction_witness :
    expK 1 13 = (13 : ℤ) / ln2 1 ∧ 0 ≤ expR 1 13 ∧ expR 1 13 < ln2 1 :=
  c2_exp_range_reduction_nonneg 1 13 (by decide) (by decide)

/-! ### C3: typed domain errors on the fallible path -/

/-- C3: `try_sqrt(-1)` returns the typed sqrt domain error (from the
source's `sqrt_newton_raphson_try`), and the fallible ln (modelled from
the spec, as no fallible ln exists under `src/`) returns the typed ln
domain error at `0` and at `-1`, at every precision, depth and fuel —
no panic and no divergence. -/
theorem c3_fallible_domain_errors (P d fuel : ℕ) :
    sqrt_newton_raphson_try P d (fromI128 P (-1)) =
      .error (.DomainError "sqrt is undefined for negative numbers") ∧
    try_ln P d fuel 0 =
      .error (.DomainError "ln is undefined for non-positive input") ∧
    try_ln P d fuel (fromI128 P (-1)) =
      .error (.DomainError "ln is undefined for non-positive input") := by
  have hS : 0 < scale P := scale_pos P
  have hneg : fromI128 P (-1) < 0 := by
    unfold fromI128; omega
  refine ⟨?_, ?_, ?_⟩
  · unfold sqrt_newton_raphson_try
    rw [if_pos hneg]
  · unfold try_ln
    rw [if_pos le_rfl]
  · unfold try_ln
    rw [if_pos hneg.le]

end FixedFast

namespace FixedFast

/-! ### C4: the fallible path refines the direct path -/

theorem cdfTable_tryNonneg_refines (P : ℕ) (t : LookupTable) (x y : ℤ)
    (h : CDFLinearInterpLookupTable.tryNonneg P t x = .value y) :
    CDFLinearInterpLookupTable.evalNonneg P t x = .value y := by
  unfold CDFLinearInterpLookupTable.tryNonneg at h
  unfold CDFLinearInterpLookupTable.evalNonneg
  by_cases h1 : t.stop ≤ x
  · rw [if_pos h1] at h; rw [if_pos h1]; exact h
  · rw [if_neg h1] at h; rw [if_neg h1]
    cases hg : t.get_index P x with
    | error e => rw [hg] at h; exact absurd h (by simp)
    | ok idx => rw [hg] at h; exact h

/-- C4: wherever the fallible path succeeds with a value, the direct
path returns exactly that value (for `SqrtNewtonRaphson`,
`SqrtLinearInterpLookupTable`, `CDFCustomAprox`, and
`CDFLinearInterpLookupTable`); and whenever the underlying condition for
a typed error holds, the fallible path returns that error rather than a
value (negative input for sqrt; an out-of-range query for the sqrt
table; `CDFCustomAprox` has no error condition and never returns one;
the CDF table forwards the range error of its lookup). -/
theorem c4_try_evaluate_refines_evaluate :
    (∀ P d : ℕ, ∀ x y : ℤ, sqrt_newton_raphson_try P d x = .value y →
      sqrt_newton_raphson P d x = some y) ∧
    (∀ P : ℕ, ∀ t : LookupTable, ∀ x y : ℤ,
      SqrtLinearInterpLookupTable.try_evaluate P t x = .value y →
      SqrtLinearInterpLookupTable.evaluate P t x = .value y) ∧
    (∀ P : ℕ, ∀ x : ℤ,
      CDFCustomAprox.try_evaluate P x = CDFCustomAprox.evaluate P x) ∧
    (∀ P : ℕ, ∀ t : LookupTable, ∀ x y : ℤ,
      CDFLinearInterpLookupTable.try_evaluate P t x = .value y →
      CDFLinearInterpLookupTable.evaluate P t x = .value y) ∧
    (∀ P d : ℕ, ∀ x : ℤ, x < 0 → sqrt_newton_raphson_try P d x =
      .error (.DomainError "sqrt is undefined for negative numbers")) ∧
    (∀ P : ℕ, ∀ t : LookupTable, ∀ x : ℤ, x < t.start ∨ t.stop < x →
      SqrtLinearInterpLookupTable.try_evaluate P t x =
        .error (.OutOfRange ((toI128 P x).emod (2 ^ 64)).toNat)) ∧
    (∀ P : ℕ, ∀ x : ℤ, ∀ e : FixedFastError,
      CDFCustomAprox.try_evaluate P x ≠ .error e) ∧
    (∀ P : ℕ, ∀ t : LookupTable, ∀ x : ℤ, 0 ≤ x → x < t.stop → x < t.start →
      CDFLinearInterpLookupTable.try_evaluate P t x =
        .error (.OutOfRange ((toI128 P x).emod (2 ^ 64)).toNat)) := by
  refine ⟨?_, ?_, ?_, ?_, ?_, ?_, ?_, ?_⟩
  · intro P d x y h
    unfold sqrt_newton_raphson_try at h
    unfold sqrt_newton_raphson
    by_cases h1 : x < 0
    · rw [if_pos h1] at h; exact absurd h (by simp)
    · rw [if_neg h1] at h
      by_cases h2 : x = 0
      · rw [if_pos h2] at h
        injection h with hy
        rw [if_pos h2, ← hy]
        simp [fromI128]
      · rw [if_neg h2] at h
        rw [if_neg h2]
        cases hl : sqrtNewtonLoop P x d (fdDivI x 2) with
        | none => rw [hl] at h; exact absurd h (by simp)
        | some z => rw [hl] at h; injection h with hy; rw [hy]
  · intro P t x y h
    unfold SqrtLinearInterpLookupTable.try_evaluate at h
    unfold SqrtLinearInterpLookupTable.evaluate
    cases hg : t.get_index P x with
    | error e => rw [hg] at h; exact absurd h (by simp)
    | ok idx => rw [hg] at h; exact h
  · intro P x
    rfl
  · intro P t x y h
    unfold CDFLinearInterpLookupTable.try_evaluate at h
    unfold CDFLinearInterpLookupTable.evaluate
    split_ifs at h with hneg
    · rw [if_pos hneg]
      cases ht : CDFLinearInterpLookupTable.tryNonneg P t (-x) with
      | value v =>
        rw [ht] at h
        rw [cdfTable_tryNonneg_refines P t (-x) v ht]
        exact h
      | error e => rw [ht] at h; exact absurd h (by simp [Outcome.map])
      | crash => rw [ht] at h; exact absurd h (by simp [Outcome.map])
    · rw [if_neg hneg]
      exact cdfTable_tryNonneg_refines P t x y h
  · intro P d x hx
    unfold sqrt_newton_raphson_try
    rw [if_pos hx]
  · intro P t x hcond
    have hg : t.get_index P x = .error (.OutOfRange ((toI128 P x).emod (2 ^ 64)).toNat) := by
      unfold LookupTable.get_index
      rw [if_pos hcond]
    unfold SqrtLinearInterpLookupTable.try_evaluate
    rw [hg]
  · intro P x e
    unfold CDFCustomAprox.try_evaluate CDFCustomAprox.evaluate
    split_ifs
    · simp
    · simp
    · cases topher_cdf P x <;> simp
  · intro P t x h0 hstop hstart
    have hg : t.get_index P x = .error (.OutOfRange ((toI128 P x).emod (2 ^ 64)).toNat) := by
      unfold LookupTable.get_index
      rw [if_pos (Or.inl hstart)]
    unfold CDFLinearInterpLookupTable.try_evaluate
    rw [if_neg (not_lt.2 h0)]
    unfold CDFLinearInterpLookupTable.tryNonneg
    rw [if_neg (not_le.2 hstop), hg]

/-- C4 witness: the refinement applied to the direct sqrt at `P = 1`,
depth 1, input `5.0` (raw 50), whose fallible path succeeds with raw 22. -/
theorem c4_try_evaluate_refines_witness : sqrt_newton_raphson 1 1 50 = some 22 :=
  c4_try_evaluate_refines_evaluate.1 1 1 50 22 (by decide)

/-! ### C5: out-of-domain behaviour of the fallible table lookup -/

/-- C5 counterexample: at `P = 1` the sqrt table over `[0, 1.0)` with
step `0.5` (samples `[0, 1.3]`) returns `OutOfRange` for `x < start` and
for `x > end`, but at `x == end` (raw 10) `get_index` succeeds (its
range check is `x > end`, inclusive of `end`) with index = sample count,
and the fallible path then panics on the out-of-bounds access
`table[index]` instead of returning the claimed error; moreover the CDF
table's fallible path clamps to `Ok(1)` above `end` instead of erroring. -/
theorem c5_end_boundary_panics :
    SqrtLinearInterpLookupTable.new 1 1 0 10 5 =
      some { table := [0, 13], start := 0, stop := 10, step_size := 5 } ∧
    SqrtLinearInterpLookupTable.try_evaluate 1 ⟨[0, 13], 0, 10, 5⟩ 10 =
      Outcome.crash ∧
    SqrtLinearInterpLookupTable.try_evaluate 1 ⟨[0, 13], 0, 10, 5⟩ 11 =
      .error (.OutOfRange 1) ∧
    SqrtLinearInterpLookupTable.try_evaluate 1 ⟨[0, 13], 0, 10, 5⟩ (-1) =
      .error (.OutOfRange 0) ∧
    CDFLinearInterpLookupTable.try_evaluate 1 ⟨[5], 0, 10, 5⟩ 11 =
      Outcome.value 10 := by
  refine ⟨by decide, by decide, by decide, by decide, by decide⟩

/-- C5 (amended): for the sqrt table-backed function, the fallible path
returns `OutOfRange(x.to_integer() as usize)` — with no panic and no
clamping — for every `x < start` and every `x > end`; at `x == end` it
instead panics (out-of-bounds table access), and the CDF table's
fallible path saturates/reflects rather than reporting `OutOfRange`. -/
theorem c5_sqrt_table_out_of_range (P : ℕ) (t : LookupTable) (x : ℤ)
    (h : x < t.start ∨ t.stop < x) :
    SqrtLinearInterpLookupTable.try_evaluate P t x =
      .error (.OutOfRange ((toI128 P x).emod (2 ^ 64)).toNat) := by
  have hg : t.get_index P x =
      .error (.OutOfRange ((toI128 P x).emod (2 ^ 64)).toNat) := by
    unfold LookupTable.get_index
    rw [if_pos h]
  unfold SqrtLinearInterpLookupTable.try_evaluate
  rw [hg]

/-- C5 witness: the amended theorem applied to the concrete sqrt table
at `x = 1.1` (raw 11, just above `end`). -/
theorem c5_sqrt_table_out_of_range_witness :
    SqrtLinearInterpLookupTable.try_evaluate 1 ⟨[0, 13], 0, 10, 5⟩ 11 =
      .error (.OutOfRange ((toI128 1 11).emod (2 ^ 64)).toNat) :=
  c5_sqrt_table_out_of_range 1 ⟨[0, 13], 0, 10, 5⟩ 11 (by decide)

end FixedFast

namespace FixedFast

/-! ### C6: the direct CDF at zero -/

/-- C6 counterexample: at precision 9 the constant coefficient literal
truncates to raw `-4` (not zero), so `CDFCustomAprox::evaluate(0)`
computes `1/(1 + exp(4·10⁻⁹))` = raw `499999999`, one ulp below the
claimed `5·10⁸`. -/
theorem c6_cdf_zero_not_half_at_p9 :
    CDFCustomAprox.evaluate 9 0 = .value 499999999 ∧
    (499999999 : ℤ) ≠ 5 * 10 ^ (9 - 1) := by
  refine ⟨by decide, by decide⟩

/-- C6 (amended): for precisions `1 ≤ P ≤ 8` the constant coefficient
truncates to zero, the polynomial vanishes at `0`, the exponential is
exactly `1`, and `CDFCustomAprox::evaluate(0)` is exactly one half:
raw `5·10^(P-1)`.  (At `P ≥ 9` the nonzero constant term perturbs the
result; see the counterexample.) -/
theorem c6_cdf_zero_exact_half_low_precision (P : ℕ) (h1 : 1 ≤ P) (h8 : P ≤ 8) :
    CDFCustomAprox.evaluate P 0 = .value (5 * 10 ^ (P - 1)) := by
  interval_cases P <;> decide

/-- C6 witness: the amended theorem applied at `P = 8`. -/
theorem c6_cdf_zero_exact_half_witness :
    CDFCustomAprox.evaluate 8 0 = .value (5 * 10 ^ (8 - 1)) :=
  c6_cdf_zero_exact_half_low_precision 8 (by decide) (by decide)

end FixedFast

namespace FixedFast

/-! ### C7: the reflection identity of the direct CDF -/

/-- C7: for every precision `P ≥ 1` and every nonzero `x`, whenever the
direct `CDFCustomAprox::evaluate(x)` returns a value `t`, the evaluation
at `-x` returns exactly `one - t`, so the sum of the two evaluations is
exactly one.  (The identity is exact by construction: `topher_cdf`
computes negative arguments as `one - topher_cdf(-x)`, and the `±6`
clamps return the exact complements `0` and `one`.  At `x = 0` the sum
is `2·CDF(0)`, exact only for `P ≤ 8`.) -/
theorem c7_cdf_reflection_exact (P : ℕ) (x t : ℤ) (_hP : 1 ≤ P) (hx : x ≠ 0)
    (h : CDFCustomAprox.evaluate P x = .value t) :
    CDFCustomAprox.evaluate P (-x) = .value (one P - t) ∧
    (one P - t) + t = one P := by
  have hS : 0 < scale P := scale_pos P
  refine ⟨?_, by ring⟩
  unfold CDFCustomAprox.evaluate at h ⊢
  unfold topher_cdf at h ⊢
  rcases lt_trichotomy x 0 with hneg | hzero | hpos
  · by_cases h6 : x < -(6 * scale P)
    · rw [if_pos h6] at h
      injection h with hy
      rw [if_neg (by omega : ¬ -x < -(6 * scale P)),
        if_pos (by omega : 6 * scale P < -x)]
      unfold one
      congr 1
      omega
    · rw [if_neg h6, if_neg (by omega : ¬ 6 * scale P < x),
        if_pos hneg] at h
      cases htop : topherPos P (-x) with
      | none => rw [htop] at h; exact absurd h (by simp)
      | some u =>
        rw [htop] at h
        simp only [Option.map_some'] at h
        injection h with hy
        rw [if_neg (by omega : ¬ -x < -(6 * scale P)),
          if_neg (by omega : ¬ 6 * scale P < -x),
          if_neg (by omega : ¬ -x < 0)]
        unfold fdSub at hy
        exact congrArg Outcome.value (by omega)
  · exact absurd hzero hx
  · by_cases h6 : 6 * scale P < x
    · rw [if_neg (by omega : ¬ x < -(6 * scale P)), if_pos h6] at h
      injection h with hy
      rw [if_pos (by omega : -x < -(6 * scale P))]
      unfold one at hy ⊢
      congr 1
      omega
    · rw [if_neg (by omega : ¬ x < -(6 * scale P)), if_neg h6,
        if_neg (by omega : ¬ x < 0)] at h
      cases htop : topherPos P x with
      | none => rw [htop] at h; exact absurd h (by simp)
      | some u =>
        rw [htop] at h
        injection h with hy
        rw [if_neg (by omega : ¬ -x < -(6 * scale P)),
          if_neg (by omega : ¬ 6 * scale P < -x),
          if_pos (by omega : -x < 0), neg_neg, htop]
        simp only [Option.map_some']
        unfold fdSub
        congr 1
        omega

/-- C7 witness: the reflection theorem applied at `P = 1`, `x = 7.0`
(raw 70, in the clamped region) where `evaluate` returns exactly one. -/
theorem c7_cdf_reflection_witness :
    CDFCustomAprox.evaluate 1 (-70) = .value (one 1 - 10) ∧
    (one 1 - 10) + 10 = one 1 :=
  c7_cdf_reflection_exact 1 70 10 (by decide) (by decide) (by decide)

end FixedFast

namespace FixedFast

/-! ### C8: the lookup table constructor invariants -/

/-- C8: for `step > 0` and `end > start`, `LookupTable::new` builds
exactly `⌊(end - start) / step⌋` samples, and sample `i` is exactly
`f(start + i·step)`.  (The table is a plain immutable value; the crate
exposes no operation that modifies it after construction.) -/
theorem c8_lookup_table_new_invariants (P : ℕ) (start stop step : ℤ) (f : ℤ → ℤ)
    (hstep : 0 < step) (hrange : start < stop) :
    ((LookupTable.new P start stop step f).table.length : ℤ) = (stop - start) / step ∧
    ∀ i : ℕ, i < (LookupTable.new P start stop step f).table.length →
      (LookupTable.new P start stop step f).table[i]? =
        some (f (start + step * (i : ℤ))) := by
  have hS : 0 < scale P := scale_pos P
  have hA : (0 : ℤ) ≤ stop - start := by omega
  have hAS : (0 : ℤ) ≤ (stop - start) * scale P := mul_nonneg hA hS.le
  constructor
  · unfold LookupTable.new
    simp only [List.length_map, List.length_range]
    unfold toI128 fdDiv fdSub
    rw [Int.tdiv_eq_ediv hAS hstep.le,
      Int.tdiv_eq_ediv (Int.ediv_nonneg hAS hstep.le) hS.le,
      ediv_ediv_of_nonneg hAS hstep hS,
      Int.mul_ediv_mul_of_pos_left (stop - start) step hS]
    exact Int.toNat_of_nonneg (Int.ediv_nonneg hA hstep.le)
  · intro i hi
    unfold LookupTable.new at hi ⊢
    simp only [List.length_map, List.length_range] at hi
    simp only [List.getElem?_map, List.getElem?_range hi, Option.map_some']
    unfold fdAdd fdMulI
    rfl

/-- C8 witness: the invariants applied to the table over `[0, 1.0)` with
step `0.5` at `P = 1` sampling the identity function. -/
theorem c8_lookup_table_new_witness :
    (0 : ℤ) < 5 ∧ (0 : ℤ) < 10 ∧
    ((LookupTable.new 1 0 10 5 (fun v => v)).table.length : ℤ) = (10 - 0) / 5 :=
  ⟨by decide, by decide,
    (c8_lookup_table_new_invariants 1 0 10 5 (fun v => v) (by decide) (by decide)).1⟩

/-! ### C9: behaviour of the unchecked paths outside the domain -/

theorem lnDouble_neg_overflow (P fuel : ℕ) :
    ∀ raw shift : ℤ, raw < 0 → i128Min ≤ raw → (2 : ℤ) ^ 127 < 2 ^ fuel * (-raw) →
      lnDouble P fuel raw shift = some .overflow := by
  induction fuel with
  | zero =>
    intro raw shift h hmin hpow
    exfalso
    unfold i128Min at hmin
    rw [pow_zero, one_mul] at hpow
    omega
  | succ n ih =>
    intro raw shift h hmin hpow
    unfold lnDouble
    rw [if_pos (by have := scale_pos P; omega)]
    by_cases hb : inBoundsI128 (fdMulI raw 2)
    · rw [if_pos hb]
      refine ih _ _ (by unfold fdMulI; omega) ?_ ?_
      · simp only [inBoundsI128, i128Min, i128Max, fdMulI] at hb ⊢
        omega
      · calc (2 : ℤ) ^ 127 < 2 ^ (n + 1) * (-raw) := hpow
          _ = 2 ^ n * (-(fdMulI raw 2)) := by unfold fdMulI; ring
    · rw [if_neg hb]

/-- C9 counterexample: at `P = 1` with one Newton iteration, the
unchecked sqrt of `-1.0` (raw `-10`) returns the value `0.7` (raw 7) —
it does not abort, refuting "aborts for every negative input". -/
theorem c9_counterexample_sqrt_negative_no_abort :
    sqrt_newton_raphson 1 1 (-10) = some 7 ∧
    sqrt_newton_raphson 1 1 (-10) ≠ none := by
  refine ⟨by decide, by decide⟩

/-- C9 (amended): on the unchecked path, ln aborts for every input
`≤ 0` as the claim states — an explicit `panic!("ln(0) is undefined")`
at `0`, and for every negative `i128` raw the doubling loop's `i128`
multiplication overflows within 128 iterations, an arithmetic-overflow
abort under Rust's checked-overflow semantics (a release build would
wrap instead, exiting with a garbage value for most inputs) — but the
unchecked sqrt performs no domain check at all: on negative inputs it
can return an ordinary (meaningless) value, e.g. `0.7` for input `-1.0`
at precision 1 with depth 1, so it does not abort on every negative
input. -/
theorem c9_unchecked_domain_behaviour (P d fuel : ℕ) (x : ℤ)
    (hx : x < 0) (hmin : i128Min ≤ x) (hfuel : 128 ≤ fuel) :
    range_reduce_arctanh_ln P d fuel 0 = some Outcome.crash ∧
    range_reduce_arctanh_ln P d fuel x = some Outcome.crash ∧
    sqrt_newton_raphson 1 1 (-10) = some 7 := by
  have hS : 0 < scale P := scale_pos P
  refine ⟨?_, ?_, by decide⟩
  · unfold range_reduce_arctanh_ln
    rw [if_pos rfl]
  · unfold range_reduce_arctanh_ln
    rw [if_neg (by omega : ¬ x = 0)]
    have hh : lnHalve P x 0 = (x, 0) := by
      unfold lnHalve
      rw [dif_neg (by omega : ¬ 2 * scale P < x)]
    have hpow : (2 : ℤ) ^ 127 < 2 ^ fuel * (-x) := by
      calc (2 : ℤ) ^ 127 < 2 ^ 128 * 1 := by norm_num
        _ ≤ 2 ^ fuel * (-x) := by
            apply mul_le_mul (pow_le_pow_right₀ (by norm_num) hfuel)
              (by omega) (by norm_num) (by positivity)
    simp [hh, lnDouble_neg_overflow P fuel x 0 hx hmin hpow]

/-- C9 witness: the amended theorem applied at `P = 1`, depth 1,
fuel 128, input `-1.0` (raw `-10`). -/
theorem c9_unchecked_domain_witness :
    range_reduce_arctanh_ln 1 1 128 0 = some Outcome.crash ∧
    range_reduce_arctanh_ln 1 1 128 (-10) = some Outcome.crash ∧
    sqrt_newton_raphson 1 1 (-10) = some 7 :=
  c9_unchecked_domain_behaviour 1 1 128 (-10) (by decide) (by decide) (by decide)

/-! ### C10: the checked arithmetic operations -/

/-- C10: `checked_add`/`checked_sub`/`checked_mul` return `Overflow`
exactly when the raw `i128` operation leaves the representable range —
for `checked_mul` the raw product `a·b` before the rescaling division —
and on success they return exactly the unchecked `add`/`sub`/`mul`
results.  The final conjuncts exhibit a raw product (at `P = 1`) that
overflows even though the rescaled result is representable. -/
theorem c10_checked_ops_behaviour (P : ℕ) (a b : ℤ) :
    (checked_add a b = .ok (fdAdd a b) ↔ inBoundsI128 (a + b)) ∧
    (checked_add a b = .error .Overflow ↔ ¬ inBoundsI128 (a + b)) ∧
    (checked_sub a b = .ok (fdSub a b) ↔ inBoundsI128 (a - b)) ∧
    (checked_sub a b = .error .Overflow ↔ ¬ inBoundsI128 (a - b)) ∧
    (checked_mul P a b = .ok (fdMul P a b) ↔ inBoundsI128 (a * b)) ∧
    (checked_mul P a b = .error .Overflow ↔ ¬ inBoundsI128 (a * b)) ∧
    checked_mul 1 (4 * 10 ^ 19) (4 * 10 ^ 19) = .error .Overflow ∧
    inBoundsI128 (fdMul 1 (4 * 10 ^ 19) (4 * 10 ^ 19)) := by
  refine ⟨?_, ?_, ?_, ?_, ?_, ?_, by decide, by decide⟩
  · unfold checked_add fdAdd
    by_cases hb : inBoundsI128 (a + b)
    · simp [hb]
    · simp [hb]
  · unfold checked_add
    by_cases hb : inBoundsI128 (a + b)
    · simp [hb]
    · simp [hb]
  · unfold checked_sub fdSub
    by_cases hb : inBoundsI128 (a - b)
    · simp [hb]
    · simp [hb]
  · unfold checked_sub
    by_cases hb : inBoundsI128 (a - b)
    · simp [hb]
    · simp [hb]
  · unfold checked_mul fdMul
    by_cases hb : inBoundsI128 (a * b)
    · simp [hb]
    · simp [hb]
  · unfold checked_mul
    by_cases hb : inBoundsI128 (a * b)
    · simp [hb]
    · simp [hb]

end FixedFast
